import Mathlib

/-!
Verification development for the kodif-team/ai-codereviewer pull-request
review action (src/main.ts).  The TypeScript source is shallowly embedded:
JS numbers are modelled as rationals, with `none : Option ℚ` standing for
NaN where the code tests `isNaN`; JS strings are Lean strings (key strings
built by template literals are modelled as `List Char`); asynchronous
effects (the OpenAI call, the GitHub REST/GraphQL calls) are passed in as
explicit outcome functions, and each embedded driver returns the log of
calls it performed together with the propagated error, if any.
-/

/-- The `side` of a review comment, `"LEFT" | "RIGHT"` in the source. -/
inductive Side where
  | LEFT
  | RIGHT
deriving DecidableEq

/-- One element of the model reply, as typed in `getAIResponse`:
`{lineNumber: number; changeType: string; reviewComment: string}`.
`lineNumber` is a JS number: `none` models NaN, `some q` a finite value. -/
structure AIResponseItem where
  lineNumber : Option ℚ
  changeType : String
  reviewComment : String
deriving DecidableEq

/-- Output shape of `createComment`: `{body, line, side}` (no path yet). -/
structure PartialComment where
  body : String
  line : ℚ
  side : Side
deriving DecidableEq

/-- A full review comment `{body, path, line, side}` as accumulated in
`analyzeCode` and published by `createReviewComment`. -/
structure Comment where
  body : String
  path : String
  line : ℚ
  side : Side
deriving DecidableEq

/-- Embedding of `createComment` (src/main.ts:220-240): for each candidate,
drop it when `isNaN(lineNum) || lineNum <= 0`, otherwise emit
`{body: reviewComment, line: lineNum, side: changeType === "+" ? "RIGHT" : "LEFT"}`. -/
def createComment (aiResponses : List AIResponseItem) : List PartialComment :=
  aiResponses.flatMap fun aiResponse =>
    match aiResponse.lineNumber with
    | none => []
    | some lineNum =>
      if lineNum ≤ 0 then []
      else [{ body := aiResponse.reviewComment
              line := lineNum
              side := if aiResponse.changeType = "+" then Side.RIGHT else Side.LEFT }]

/-- Spec-side validity predicate for a candidate: the code keeps exactly the
candidates whose lineNumber is a non-NaN positive number. -/
def candidateValid (r : AIResponseItem) : Bool :=
  match r.lineNumber with
  | none => false
  | some q => decide (0 < q)

/-- Spec-side image of one kept candidate under `createComment`. -/
def commentOf (r : AIResponseItem) : PartialComment :=
  { body := r.reviewComment
    line := r.lineNumber.getD 0
    side := if r.changeType = "+" then Side.RIGHT else Side.LEFT }

/-- The ten decimal digit characters. -/
def digitCh : ℕ → Char
  | 0 => '0'
  | 1 => '1'
  | 2 => '2'
  | 3 => '3'
  | 4 => '4'
  | 5 => '5'
  | 6 => '6'
  | 7 => '7'
  | 8 => '8'
  | _ => '9'

/-- The ten decimal digit characters, for reasoning about renderings. -/
def digitChars : List Char := ['0', '1', '2', '3', '4', '5', '6', '7', '8', '9']

/-- Base-10 rendering of a natural number, most significant digit first;
this models the JS decimal rendering of a nonnegative integer. -/
def natRepr (n : ℕ) : List Char :=
  if h : n < 10 then [digitCh n]
  else natRepr (n / 10) ++ [digitCh (n % 10)]
termination_by n
decreasing_by exact Nat.div_lt_self (by omega) (by omega)

/-- Numeric value of a digit character. -/
def digitVal (c : Char) : ℕ := c.toNat - 48

/-- Decode a digit list back to the natural number it renders. -/
def decodeNat (ds : List Char) : ℕ :=
  ds.foldl (fun a c => 10 * a + digitVal c) 0

/-- Model of the JS rendering of the comment `line` number inside the
template literal `path:line:side`.  On integers it agrees exactly with JS;
on other rationals it is some injective rendering without a colon, which is
all the development relies on (the real JS rendering of a double is also
injective and never contains a colon). -/
def qRepr (q : ℚ) : List Char :=
  (if q < 0 then ['-'] else []) ++ natRepr q.num.natAbs ++
    (if q.den = 1 then [] else '.' :: natRepr q.den)

/-- Rendering of a `Side` as in the source strings `"LEFT"` and `"RIGHT"`. -/
def sideRepr : Side → List Char
  | Side.LEFT => ['L', 'E', 'F', 'T']
  | Side.RIGHT => ['R', 'I', 'G', 'H', 'T']

/-- The identity key template literal `path:line:side` used both for
existing comments and for candidates in `main` (src/main.ts:380, 384). -/
def commentKey (path : String) (line : ℚ) (side : Side) : List Char :=
  path.data ++ ':' :: (qRepr line ++ ':' :: sideRepr side)

/-- An existing review comment as accumulated by
`getExistingCommentsGraphQL`: `{path, line, body, side}`. -/
structure ExistingComment where
  path : String
  line : ℚ
  body : String
  side : Side
deriving DecidableEq

/-- One comment node of a review thread, as selected by the GraphQL query:
`path`, `body`, `actualHeadLine` (alias of `line`) and `originalBaseLine`
(alias of `originalLine`); the two line fields are nullable. -/
structure ThreadComment where
  path : String
  body : String
  actualHeadLine : Option ℚ
  originalBaseLine : Option ℚ
deriving DecidableEq

/-- A review thread node: `isOutdated`, `isResolved`, `diffSide` (a GraphQL
enum with exactly the values LEFT and RIGHT) and its comment nodes. -/
structure ReviewThread where
  isOutdated : Bool
  isResolved : Bool
  diffSide : Side
  comments : List ThreadComment
deriving DecidableEq

/-- Pure part of `getExistingCommentsGraphQL` (src/main.ts:301-330): from
the listed threads, keep the non-outdated ones, normalize the thread side
(`diffSide === "LEFT" ? "LEFT" : "RIGHT"`), pick per comment the line of the
thread's side (LEFT takes `originalBaseLine`, RIGHT takes `actualHeadLine`),
and skip comments whose picked line is null or undefined. -/
def existingCommentsOfThreads (threads : List ReviewThread) : List ExistingComment :=
  threads.flatMap fun thread =>
    if thread.isOutdated then []
    else
      let threadSide := if thread.diffSide = Side.LEFT then Side.LEFT else Side.RIGHT
      thread.comments.flatMap fun commentNode =>
        let relevantLineNumber :=
          match threadSide with
          | Side.LEFT => commentNode.originalBaseLine
          | Side.RIGHT => commentNode.actualHeadLine
        match relevantLineNumber with
        | none => []
        | some l =>
          [{ path := commentNode.path, line := l, body := commentNode.body, side := threadSide }]

/-- The key set `existingCommentsSet` of `main` (src/main.ts:379-381); the JS
`Set` is modelled as the list of its member strings. -/
def existingKeysOf (existingComments : List ExistingComment) : List (List Char) :=
  existingComments.map fun comment => commentKey comment.path comment.line comment.side

/-- `isDuplicate` of `main` (src/main.ts:383-386). -/
def isDuplicate (existingKeys : List (List Char)) (newComment : Comment) : Bool :=
  existingKeys.contains (commentKey newComment.path newComment.line newComment.side)

/-- `uniqueComments` of `main` (src/main.ts:388). -/
def uniqueCommentsOf (comments : List Comment) (existingComments : List ExistingComment) :
    List Comment :=
  comments.filter fun comment => !isDuplicate (existingKeysOf existingComments) comment

/-- Modelled from the spec side of claim C6: the identity keys
`(path, line, side)` of every comment of a non-outdated thread, where a LEFT
thread contributes the base-relative line and a RIGHT thread the
head-relative line, and comments whose relevant line is null contribute no
key. -/
def specThreadKeys (threads : List ReviewThread) : List (String × ℚ × Side) :=
  threads.flatMap fun thread =>
    if thread.isOutdated then []
    else
      thread.comments.flatMap fun commentNode =>
        match (match thread.diffSide with
               | Side.LEFT => commentNode.originalBaseLine
               | Side.RIGHT => commentNode.actualHeadLine) with
        | none => []
        | some l => [(commentNode.path, l, thread.diffSide)]

/-- A JSON value, the possible results of `JSON.parse`. -/
inductive Json where
  | null
  | bool (b : Bool)
  | num (q : ℚ)
  | str (s : String)
  | arr (elems : List Json)
  | obj (fields : List (String × Json))

/-- JSON whitespace. -/
def isJsonWs (c : Char) : Bool :=
  c = ' ' || c = '\t' || c = '\n' || c = '\r'

/-- Skip JSON whitespace. -/
def skipWs (cs : List Char) : List Char :=
  cs.dropWhile isJsonWs

/-- Value of a hex digit. -/
def hexVal (c : Char) : Option ℕ :=
  if c.isDigit then some (c.toNat - 48)
  else if 'a' ≤ c ∧ c ≤ 'f' then some (c.toNat - 87)
  else if 'A' ≤ c ∧ c ≤ 'F' then some (c.toNat - 55)
  else none

/-- Parse the body of a JSON string after the opening quote, with the usual
escape sequences; returns the string and the input after the closing quote. -/
def parseStrAux : ℕ → List Char → List Char → Option (String × List Char)
  | 0, _, _ => none
  | fuel + 1, acc, cs =>
    match cs with
    | [] => none
    | c :: rest =>
      if c = '"' then some (String.mk acc.reverse, rest)
      else if c = '\\' then
        match rest with
        | [] => none
        | e :: rest2 =>
          if e = '"' then parseStrAux fuel ('"' :: acc) rest2
          else if e = '\\' then parseStrAux fuel ('\\' :: acc) rest2
          else if e = '/' then parseStrAux fuel ('/' :: acc) rest2
          else if e = 'b' then parseStrAux fuel ('\x08' :: acc) rest2
          else if e = 'f' then parseStrAux fuel ('\x0c' :: acc) rest2
          else if e = 'n' then parseStrAux fuel ('\n' :: acc) rest2
          else if e = 'r' then parseStrAux fuel ('\x0d' :: acc) rest2
          else if e = 't' then parseStrAux fuel ('\t' :: acc) rest2
          else if e = 'u' then
            match rest2 with
            | h1 :: h2 :: h3 :: h4 :: rest3 =>
              match hexVal h1, hexVal h2, hexVal h3, hexVal h4 with
              | some v1, some v2, some v3, some v4 =>
                parseStrAux fuel
                  (Char.ofNat (((v1 * 16 + v2) * 16 + v3) * 16 + v4) :: acc) rest3
              | _, _, _, _ => none
            | _ => none
          else none
      else parseStrAux fuel (c :: acc) rest

/-- Parse an optional JSON fraction part. -/
def parseFrac (cs : List Char) : Option (List Char × List Char) :=
  match cs with
  | '.' :: t =>
    let p := t.span Char.isDigit
    if p.1.isEmpty then none else some (p.1, p.2)
  | _ => some ([], cs)

/-- Parse an optional JSON exponent part. -/
def parseExp (cs : List Char) : Option (ℤ × List Char) :=
  match cs with
  | c :: t =>
    if c = 'e' ∨ c = 'E' then
      let sgnRest : ℤ × List Char :=
        match t with
        | '+' :: u => (1, u)
        | '-' :: u => (-1, u)
        | _ => (1, t)
      let p := sgnRest.2.span Char.isDigit
      if p.1.isEmpty then none else some (sgnRest.1 * (decodeNat p.1 : ℤ), p.2)
    else some (0, cs)
  | [] => some (0, cs)

/-- Parse a JSON number (strict grammar: no leading zeros, a fraction or
exponent must have digits). -/
def parseNumber (cs : List Char) : Option (ℚ × List Char) :=
  let signRest : Bool × List Char :=
    match cs with
    | '-' :: t => (true, t)
    | _ => (false, cs)
  let ip := signRest.2.span Char.isDigit
  if ip.1.isEmpty then none
  else if ip.1.length > 1 ∧ ip.1.headD ' ' = '0' then none
  else
    match parseFrac ip.2 with
    | none => none
    | some (fracDs, cs3) =>
      match parseExp cs3 with
      | none => none
      | some (expVal, cs4) =>
        let mantissa : ℚ := (decodeNat (ip.1 ++ fracDs) : ℚ) / (10 : ℚ) ^ fracDs.length
        let signed : ℚ := if signRest.1 then -mantissa else mantissa
        let q : ℚ :=
          if 0 ≤ expVal then signed * (10 : ℚ) ^ expVal.toNat
          else signed / (10 : ℚ) ^ (-expVal).toNat
        some (q, cs4)

/-- Mode tag of the JSON parser: a single value, the tail of an array, or
the tail of an object. -/
inductive PMode where
  | val
  | elems
  | fields

/-- Intermediate result of the JSON parser. -/
inductive POut where
  | v (j : Json)
  | vs (js : List Json)
  | kvs (fs : List (String × Json))

/-- Fuel-indexed JSON parser (the fuel passed by `jsonParse` is ample for
every input).  In mode `val` the input must start with a value; in mode
`elems` with the remaining comma-separated elements of an array up to `]`;
in mode `fields` with the remaining fields of an object up to the closing
brace. -/
def parseP : ℕ → PMode → List Char → Option (POut × List Char)
  | 0, _, _ => none
  | fuel + 1, PMode.val, cs =>
    match cs with
    | [] => none
    | c :: rest =>
      if c = 'n' then
        match rest with
        | 'u' :: 'l' :: 'l' :: r => some (POut.v Json.null, r)
        | _ => none
      else if c = 't' then
        match rest with
        | 'r' :: 'u' :: 'e' :: r => some (POut.v (Json.bool true), r)
        | _ => none
      else if c = 'f' then
        match rest with
        | 'a' :: 'l' :: 's' :: 'e' :: r => some (POut.v (Json.bool false), r)
        | _ => none
      else if c = '"' then
        match parseStrAux (rest.length + 1) [] rest with
        | some (s, r) => some (POut.v (Json.str s), r)
        | none => none
      else if c = '[' then
        match skipWs rest with
        | ']' :: r => some (POut.v (Json.arr []), r)
        | cs2 =>
          match parseP fuel PMode.elems cs2 with
          | some (POut.vs xs, r) => some (POut.v (Json.arr xs), r)
          | _ => none
      else if c = '\x7b' then
        match skipWs rest with
        | '\x7d' :: r => some (POut.v (Json.obj []), r)
        | cs2 =>
          match parseP fuel PMode.fields cs2 with
          | some (POut.kvs fs, r) => some (POut.v (Json.obj fs), r)
          | _ => none
      else if c = '-' ∨ c.isDigit then
        match parseNumber cs with
        | some (q, r) => some (POut.v (Json.num q), r)
        | none => none
      else none
  | fuel + 1, PMode.elems, cs =>
    match parseP fuel PMode.val cs with
    | some (POut.v j, r1) =>
      (match skipWs r1 with
       | ',' :: t =>
         match parseP fuel PMode.elems (skipWs t) with
         | some (POut.vs xs, r2) => some (POut.vs (j :: xs), r2)
         | _ => none
       | ']' :: t => some (POut.vs [j], t)
       | _ => none)
    | _ => none
  | fuel + 1, PMode.fields, cs =>
    match cs with
    | '"' :: rest =>
      (match parseStrAux (rest.length + 1) [] rest with
       | some (k, r1) =>
         (match skipWs r1 with
          | ':' :: t =>
            (match parseP fuel PMode.val (skipWs t) with
             | some (POut.v j, r2) =>
               (match skipWs r2 with
                | ',' :: u =>
                  (match parseP fuel PMode.fields (skipWs u) with
                   | some (POut.kvs fs, r3) => some (POut.kvs ((k, j) :: fs), r3)
                   | _ => none)
                | '\x7d' :: u => some (POut.kvs [(k, j)], u)
                | _ => none)
             | _ => none)
          | _ => none)
       | none => none)
    | _ => none

/-- Model of `JSON.parse`: parse one value, allow surrounding whitespace,
reject trailing input; `none` models the thrown `SyntaxError`. -/
def jsonParse (s : String) : Option Json :=
  match parseP (2 * s.length + 4) PMode.val (skipWs s.data) with
  | some (POut.v j, r) => if skipWs r = [] then some j else none
  | _ => none

/-- Last-wins association lookup, the JS semantics of an object field
(`JSON.parse` keeps the last duplicate key). -/
def jsLookup (fields : List (String × Json)) (key : String) : Option Json :=
  fields.foldl (fun acc kv => if kv.1 = key then some kv.2 else acc) none

/-- JS property access `value.key` on a parsed JSON value: reading a
property of `null` throws a TypeError (`Except.error ()`); any other
non-object value simply has no such property (`Except.ok none`, modelling
`undefined`); an object yields its field when present. -/
def jsGetField (j : Json) (key : String) : Except Unit (Option Json) :=
  match j with
  | Json.null => Except.error ()
  | Json.obj fields => Except.ok (jsLookup fields key)
  | _ => Except.ok none

/-- Transport-level outcome of one `openai.chat.completions.create` call:
either the awaited promise rejects (`transportError`), or it resolves with
`response.choices[0].message?.content` being absent (`none`) or a string. -/
inductive AttemptOutcome (ε : Type) where
  | transportError (e : ε)
  | response (content : Option String)

/-- The exception caught by the retry loop of `getAIResponse`: a transport
rejection, a `JSON.parse` SyntaxError, or the TypeError of reading
`.reviews` from `null`. -/
inductive AttemptError (ε : Type) where
  | transport (e : ε)
  | parseError
  | typeError
deriving DecidableEq

/-- JS whitespace as removed by `String.prototype.trim` (ASCII part; the
embedding only ever trims ASCII text). -/
def isTrimWs (c : Char) : Bool :=
  c = ' ' || c = '\t' || c = '\n' || c = '\x0d' || c = '\x0b' || c = '\x0c'

/-- Executable model of the JS `.trim()`: strip leading and trailing
whitespace. -/
def jsTrim (s : String) : String :=
  String.mk (((s.data.dropWhile isTrimWs).reverse.dropWhile isTrimWs).reverse)

/-- The body actually parsed:
`response.choices[0].message?.content?.trim() || "\x7b\x7d"`. -/
def effectiveBody : Option String → String
  | none => "\x7b\x7d"
  | some s => if jsTrim s = "" then "\x7b\x7d" else jsTrim s

/-- One loop body of `getAIResponse` (src/main.ts:184-208): await the model
call, substitute `"\x7b\x7d"` for an empty body, parse it, and return
`JSON.parse(res).reviews` (which is `undefined`, modelled `none`, when the
parsed value has no `reviews` field). -/
def attemptResult {ε : Type} (outcome : AttemptOutcome ε) :
    Except (AttemptError ε) (Option Json) :=
  match outcome with
  | AttemptOutcome.transportError e => Except.error (AttemptError.transport e)
  | AttemptOutcome.response content =>
    match jsonParse (effectiveBody content) with
    | none => Except.error AttemptError.parseError
    | some j =>
      match jsGetField j "reviews" with
      | Except.error _ => Except.error AttemptError.typeError
      | Except.ok v => Except.ok v

/-- `maxRetries` of `getAIResponse` (src/main.ts:179). -/
def maxRetries : ℕ := 3

/-- `retryDelayMs` of `getAIResponse` (src/main.ts:180). -/
def retryDelayMs : ℕ := 1000

/-- The retry loop of `getAIResponse` (src/main.ts:183-217): run attempts
starting at `attempt` while `remaining` attempts are allowed; a failed
attempt that is not the last is followed by a `retryDelayMs` sleep; the
error of the last attempt (`lastError`) propagates.  Returns the final
result, the number of attempts performed and the list of sleeps. -/
def retryGo {ε α : Type} (step : ℕ → Except ε α) (attempt : ℕ) :
    ℕ → Except ε α × ℕ × List ℕ
  | 0 => (step attempt, 1, [])
  | 1 => (step attempt, 1, [])
  | remaining + 2 =>
    match step attempt with
    | Except.ok v => (Except.ok v, 1, [])
    | Except.error _ =>
      let r := retryGo step (attempt + 1) (remaining + 1)
      (r.1, r.2.1 + 1, retryDelayMs :: r.2.2)

/-- Result of one `getAIResponse` call: the value returned or error thrown,
the number of attempts performed, and the sleeps between attempts (ms). -/
structure AIResult (ε : Type) where
  result : Except (AttemptError ε) (Option Json)
  attempts : ℕ
  delays : List ℕ

/-- `getAIResponse` (src/main.ts:165-218) for a given transport behaviour
`transport` (outcome of the model call at each attempt number). -/
def getAIResponseRun {ε : Type} (transport : ℕ → AttemptOutcome ε) : AIResult ε :=
  let r := retryGo (fun i => attemptResult (transport i)) 1 maxRetries
  ⟨r.1, r.2.1, r.2.2⟩

/-- Conversion of the dynamically typed `JSON.parse(res).reviews` value to
the list of review candidates consumed by `createComment`.  `none` is the
`undefined` of a missing `reviews` field, which `analyzeCode` skips via
`if (aiResponse)`; a falsy `reviews` value is likewise skipped.  A truthy
array maps each element to its `lineNumber` / `changeType` /
`reviewComment` fields, a missing or non-numeric `lineNumber` behaving like
NaN (the candidate is later discarded); non-string `changeType` values
compare unequal to `"+"` under `===`, which the string `""` also does. -/
def reviewsOfJson : Option Json → Option (List AIResponseItem)
  | none => none
  | some j =>
    let truthy : Bool :=
      match j with
      | Json.null => false
      | Json.bool b => b
      | Json.num q => decide (q ≠ 0)
      | Json.str s => decide (s ≠ "")
      | Json.arr _ => true
      | Json.obj _ => true
    if truthy then
      match j with
      | Json.arr items =>
        some (items.map fun item =>
          match item with
          | Json.obj fields =>
            { lineNumber :=
                match jsLookup fields "lineNumber" with
                | some (Json.num q) => some q
                | _ => none
              changeType :=
                match jsLookup fields "changeType" with
                | some (Json.str s) => s
                | _ => ""
              reviewComment :=
                match jsLookup fields "reviewComment" with
                | some (Json.str s) => s
                | _ => "" }
          | _ => { lineNumber := none, changeType := "", reviewComment := "" })
      | _ => some []
    else none

/-- `PRDetails`, restricted to the fields `createPrompt` reads. -/
structure PRDetails where
  title : String
  description : String

/-- One line change of a parsed diff chunk (the three change kinds of
parse-diff): an addition carries its new-file line `ln`, a deletion its
old-file line `ln`, a context line both `ln1` and `ln2`. -/
inductive Change where
  | add (ln : ℕ) (content : String)
  | del (ln : ℕ) (content : String)
  | normal (ln1 : ℕ) (ln2 : ℕ) (content : String)
deriving DecidableEq

/-- A diff chunk. -/
structure Chunk where
  changes : List Change
deriving DecidableEq

/-- A parsed file diff: the target path (`file.to` in the source, named
`toPath` here because `to` is reserved in Lean; `none` models the
undefined/null path of a deleted file) and the chunks. -/
structure File where
  toPath : Option String
  chunks : List Chunk
deriving DecidableEq

/-- Decimal string of a natural number. -/
def natStr (n : ℕ) : String := String.mk (natRepr n)

/-- Rendering of one change line inside `createDiffLines`
(src/main.ts:83-99): the relevant line number, a space, the content. -/
def renderChange : Change → String
  | Change.add ln content => natStr ln ++ " " ++ content
  | Change.del ln content => natStr ln ++ " " ++ content
  | Change.normal _ ln2 content => natStr ln2 ++ " " ++ content

/-- `createDiffLines` (src/main.ts:83-99). -/
def createDiffLines (chunk : Chunk) : String :=
  String.intercalate "\n" (chunk.changes.map renderChange)

/-- JS string interpolation of the possibly-undefined `file.to`. -/
def jsToStr : Option String → String
  | none => "undefined"
  | some s => s

/-- `createPrompt` (src/main.ts:102-143): the fixed review-instruction
template with `GUIDELINES`, the file path, the PR title and description and
the numbered diff lines interpolated. -/
def createPrompt (guidelines : String) (file : File) (prDetails : PRDetails) : String :=
  let diffLines := String.intercalate "\n\n" (file.chunks.map createDiffLines)
  "\n## Role  \nYou are a code review assistant that provides objective, " ++
  "constructive feedback on pull requests.\n\n## How to Review (Instructions):\n" ++
  "- Provide feedback ONLY when there are actionable improvements to suggest\n" ++
  "- If no issues are found, return an empty reviews array\n" ++
  "- Format all comments in GitHub Markdown\n" ++
  "- Focus exclusively on the code changes, not PR titles or descriptions\n" ++
  "- Be specific and actionable in your feedback\n" ++
  "- IMPORTANT: NEVER suggest adding comments to the code.\n\n" ++
  "## What to Review (Guidelines):\n" ++
  "- Ensure code is clean and readable\n" ++
  "- Avoid unnecessary complexity and code duplication\n" ++
  "- Manage dependencies effectively and audit for vulnerabilities\n" ++
  "- Use descriptive nouns for variables, verbs for functions, and avoid abbreviations.\n" ++
  "- Keep functions small and focused (single responsibility)\n" ++
  "- Do not comment about the code removed unless you see usage of the code in the diff.\n" ++
  guidelines ++
  "\n\nReview the following code diff in the file \"" ++ jsToStr file.toPath ++
  "\" and take the pull request title and description into account when " ++
  "writing the response.\n\nPull request title: " ++ prDetails.title ++
  "\nPull request description:\n---\n" ++ prDetails.description ++
  "\n---\n\nGit diff to review:\n\n```diff\n" ++ diffLines ++ "\n```\n"

/-- Outcome of one `analyzeCode` run: the accumulated comments (empty when
an error escaped, since the thrown exception discards the local array), the
prompts sent to the model in order, and the escaped error, if any. -/
structure AnalyzeResult (ε : Type) where
  comments : List Comment
  calls : List String
  error : Option ε

/-- `analyzeCode` (src/main.ts:55-81) against a model oracle mapping each
prompt to the result of `getAIResponse` for it: skip files whose `to` path
is falsy (undefined, null or `""`) or `"/dev/null"`; otherwise build the
prompt, call the model — a thrown error aborts the loop — and append the
mapped comments, with `path` spread in. -/
def analyzeCode {ε : Type} (oracle : String → Except ε (Option (List AIResponseItem)))
    (prDetails : PRDetails) (guidelines : String) : List File → AnalyzeResult ε
  | [] => ⟨[], [], none⟩
  | file :: rest =>
    match file.toPath with
    | none => analyzeCode oracle prDetails guidelines rest
    | some currentFilePath =>
      if currentFilePath = "" ∨ currentFilePath = "/dev/null" then
        analyzeCode oracle prDetails guidelines rest
      else
        let prompt := createPrompt guidelines file prDetails
        match oracle prompt with
        | Except.error e => ⟨[], [prompt], some e⟩
        | Except.ok none =>
          let r := analyzeCode oracle prDetails guidelines rest
          ⟨r.comments, prompt :: r.calls, r.error⟩
        | Except.ok (some items) =>
          let r := analyzeCode oracle prDetails guidelines rest
          ⟨(createComment items).map
              (fun c => { body := c.body, path := currentFilePath
                          line := c.line, side := c.side }) ++ r.comments,
           prompt :: r.calls, r.error⟩

/-- The oracle induced by `getAIResponse`: per prompt, run the retry loop
against that prompt's transport behaviour and convert the returned
`JSON.parse(res).reviews` value for `createComment`. -/
def oracleOf {ε : Type} (transport : String → ℕ → AttemptOutcome ε) :
    String → Except (AttemptError ε) (Option (List AIResponseItem)) :=
  fun prompt => (getAIResponseRun (transport prompt)).result.map reviewsOfJson

/-- One `octokit.pulls.createReview` call as issued by
`createReviewComment` (src/main.ts:242-255): the comment payload and the
review event, always `"COMMENT"`. -/
structure ReviewCall where
  comments : List Comment
  event : String
deriving DecidableEq

/-- The payload built by `createReviewComment` (src/main.ts:242-255). -/
def createReviewComment (comments : List Comment) : ReviewCall :=
  { comments := comments, event := "COMMENT" }

/-- `BATCH_SIZE` of `main` (src/main.ts:390). -/
def BATCH_SIZE : ℕ := 50

/-- Loop body of `chunkArray`, fuel-indexed (the fuel passed by
`chunkArray` is ample: each iteration with a positive `chunkSize` consumes
at least one element).  The source loop (src/main.ts:257-263) slices
`[i, i + chunkSize)` and advances `i` by `chunkSize`; it would not
terminate for `chunkSize = 0`, a case the embedding maps to `[]` and the
program never exercises (the only call site passes 50). -/
def chunkArrayGo {α : Type} (chunkSize : ℕ) : ℕ → List α → List (List α)
  | 0, _ => []
  | _, [] => []
  | fuel + 1, x :: xs =>
    (x :: xs).take chunkSize :: chunkArrayGo chunkSize fuel ((x :: xs).drop chunkSize)

/-- `chunkArray` (src/main.ts:257-263). -/
def chunkArray {α : Type} (array : List α) (chunkSize : ℕ) : List (List α) :=
  chunkArrayGo chunkSize array.length array

/-- The publishing loop of `main` (src/main.ts:393-401): submit each batch
through `createReviewComment`; an awaited rejection propagates immediately
(there is no try/catch), so later batches are not submitted.  Returns the
calls performed, in order, and the escaped error, if any. -/
def submitBatches {ε : Type} (outcome : ReviewCall → Except ε Unit) :
    List (List Comment) → List ReviewCall × Option ε
  | [] => ([], none)
  | batch :: rest =>
    let call := createReviewComment batch
    match outcome call with
    | Except.error e => ([call], some e)
    | Except.ok _ =>
      let r := submitBatches outcome rest
      (call :: r.1, r.2)

/-- The try/catch of `getExistingCommentsGraphQL` (src/main.ts:290-335)
around its GraphQL transport: on rejection it logs, calls
`core.setFailed` (first component `true`) and returns `[]`; on success it
returns the accumulated existing comments. -/
def getExistingCommentsRun {ε : Type} (resp : Except ε (List ReviewThread)) :
    Bool × List ExistingComment :=
  match resp with
  | Except.error _ => (true, [])
  | Except.ok threads => (false, existingCommentsOfThreads threads)

/-- Outcome of the publishing phase of `main`: whether `core.setFailed` was
called (by `getExistingCommentsGraphQL` or by the top-level catch), the
review-creation calls performed, and the error escaping `main`, if any. -/
structure MainOutcome (ε : Type) where
  failedFlag : Bool
  calls : List ReviewCall
  error : Option ε
deriving DecidableEq

/-- The tail of `main` (src/main.ts:371-401) from the collected
`analyzeCode` comments on: return early when there are none; otherwise list
the existing comments (with the internal catch of
`getExistingCommentsGraphQL`), filter duplicates, chunk into batches of
`BATCH_SIZE` and submit them in order.  An error escaping the loop reaches
`main().catch`, which also calls `core.setFailed`. -/
def mainPublish {ε : Type} (threadsResp : Except ε (List ReviewThread))
    (comments : List Comment) (outcome : ReviewCall → Except ε Unit) : MainOutcome ε :=
  if comments.isEmpty then ⟨false, [], none⟩
  else
    let fe := getExistingCommentsRun threadsResp
    let unique := uniqueCommentsOf comments fe.2
    let sb := submitBatches outcome (chunkArray unique BATCH_SIZE)
    ⟨fe.1 || sb.2.isSome, sb.1, sb.2⟩

/-- A sample comment used by concrete counterexamples and witnesses. -/
def sampleComment : Comment :=
  { body := "Consider renaming x", path := "app.py", line := 42, side := Side.RIGHT }

/-- A second sample comment. -/
def sampleComment2 : Comment :=
  { body := "Unused import", path := "lib.py", line := 7, side := Side.LEFT }

/-- A sample PR context. -/
def samplePR : PRDetails := { title := "t", description := "d" }

/-- Claim C1, as stated, is false on the code: a candidate whose
`changeType` is neither `"+"` nor `"-"` (here `"?"`) does not fail
validation; `createComment` still produces a comment, silently defaulting
its side to LEFT. -/
theorem C1_counterexample :
    createComment [{ lineNumber := some 1, changeType := "?", reviewComment := "use map" }] =
      [{ body := "use map", line := 1, side := Side.LEFT }] ∧
    "?" ≠ "+" ∧ "?" ≠ "-" := by
  refine ⟨?_, by decide, by decide⟩
  rfl

/-- Claim C1 (amended): for every candidate accepted by `createComment`
(positive, non-NaN line number), a `changeType` of `"+"` yields side RIGHT
and every other `changeType` — `"-"` included — yields side LEFT;
`changeType` is not validated, so exactly one comment is produced either
way. -/
theorem C1_changeType_mapping (r : AIResponseItem) (q : ℚ)
    (hq : r.lineNumber = some q) (hpos : 0 < q) :
    (createComment [r]).length = 1 ∧
    (r.changeType = "+" →
      createComment [r] = [{ body := r.reviewComment, line := q, side := Side.RIGHT }]) ∧
    (r.changeType ≠ "+" →
      createComment [r] = [{ body := r.reviewComment, line := q, side := Side.LEFT }]) := by
  have hle : ¬ q ≤ 0 := not_le.mpr hpos
  refine ⟨?_, ?_, ?_⟩
  · simp [createComment, hq, hle]
  · intro hplus
    simp [createComment, hq, hle, hplus]
  · intro hplus
    simp [createComment, hq, hle, hplus]

/-- Witness for C1's amended theorem at a concrete candidate. -/
theorem C1_witness :
    createComment [{ lineNumber := some 3, changeType := "-", reviewComment := "w" }] =
      [{ body := "w", line := 3, side := Side.LEFT }] :=
  (C1_changeType_mapping { lineNumber := some 3, changeType := "-", reviewComment := "w" }
    3 rfl (by norm_num)).2.2 (by decide)

/-- Claim C5 (amended): `createComment` keeps exactly the candidates whose
`lineNumber` is a positive non-NaN number — the code checks only
`isNaN(lineNum) || lineNum <= 0`, so a positive non-integer is kept — in
input order, each kept candidate contributing one comment with its
`reviewComment` verbatim as body; the output length is the input length
minus the number of discarded (NaN or nonpositive) candidates. -/
theorem C5_line_validation (aiResponses : List AIResponseItem) :
    createComment aiResponses = (aiResponses.filter candidateValid).map commentOf ∧
    (createComment aiResponses).length =
      aiResponses.length - (aiResponses.filter (fun r => !candidateValid r)).length := by
  induction aiResponses with
  | nil => exact ⟨rfl, rfl⟩
  | cons r rest ih =>
    have hmap : createComment (r :: rest) =
        (match r.lineNumber with
         | none => []
         | some lineNum =>
           if lineNum ≤ 0 then []
           else [{ body := r.reviewComment, line := lineNum
                   side := if r.changeType = "+" then Side.RIGHT else Side.LEFT }]) ++
          createComment rest := rfl
    have hbound : (rest.filter (fun r => !candidateValid r)).length ≤ rest.length :=
      List.length_filter_le _ _
    have hcv : candidateValid r = true ∨ candidateValid r = false := by
      cases candidateValid r <;> simp
    rcases hcv with hcv | hcv
    · have hq : ∃ q, r.lineNumber = some q ∧ 0 < q := by
        unfold candidateValid at hcv
        match h : r.lineNumber with
        | none => rw [h] at hcv; exact absurd hcv (by simp)
        | some q => rw [h] at hcv; exact ⟨q, rfl, by simpa using hcv⟩
      obtain ⟨q, h, hpos⟩ := hq
      have hle : ¬ q ≤ 0 := not_le.mpr hpos
      have hhead : (match r.lineNumber with
         | none => ([] : List PartialComment)
         | some lineNum =>
           if lineNum ≤ 0 then []
           else [{ body := r.reviewComment, line := lineNum
                   side := if r.changeType = "+" then Side.RIGHT else Side.LEFT }]) =
          [commentOf r] := by
        rw [h]
        simp [hle, commentOf, h]
      constructor
      · rw [hmap, hhead, ih.1, List.filter_cons_of_pos hcv]
        simp
      · rw [hmap, hhead, List.length_append, ih.2,
          List.filter_cons_of_neg (by simp [hcv])]
        simp only [List.length_cons, List.length_nil, List.length_singleton]
        omega
    · have hhead : (match r.lineNumber with
         | none => ([] : List PartialComment)
         | some lineNum =>
           if lineNum ≤ 0 then []
           else [{ body := r.reviewComment, line := lineNum
                   side := if r.changeType = "+" then Side.RIGHT else Side.LEFT }]) =
          [] := by
        unfold candidateValid at hcv
        match h : r.lineNumber with
        | none => rfl
        | some q =>
          rw [h] at hcv
          have : ¬ 0 < q := by simpa using hcv
          simp [not_lt.mp this]
      constructor
      · rw [hmap, hhead, ih.1, List.filter_cons_of_neg (by simp [hcv])]
        simp
      · rw [hmap, hhead, List.length_append, ih.2,
          List.filter_cons_of_pos (by simp [hcv])]
        simp only [List.length_cons, List.length_nil]
        omega

/-- Claim C5, as stated, is false on the code: a candidate with the
non-integer line number 5/2 is kept, not discarded — `isNaN` and `<= 0`
are the only checks, neither of which rejects a positive fraction. -/
theorem C5_counterexample :
    createComment [{ lineNumber := some (5/2), changeType := "+", reviewComment := "frac" }] =
      [{ body := "frac", line := 5/2, side := Side.RIGHT }] ∧
    ((5 : ℚ)/2).den = 2 := by
  have h1 : ¬ ((5 : ℚ)/2 ≤ 0) := by norm_num
  constructor
  · simp [createComment, h1]
  · norm_num

/-- Shape of the three-attempt retry loop as one case split. -/
theorem retryGo_three {ε α : Type} (step : ℕ → Except ε α) :
    retryGo step 1 3 =
      (match step 1 with
       | Except.ok v => (Except.ok v, 1, [])
       | Except.error _ =>
         match step 2 with
         | Except.ok v => (Except.ok v, 2, [1000])
         | Except.error _ => (step 3, 3, [1000, 1000])) := by
  cases h1 : step 1 <;> cases h2 : step 2 <;>
    simp [retryGo, retryDelayMs, h1, h2]

/-- The loop performs at most `maxRetries` attempts. -/
theorem aiRun_attempts_le {ε : Type} (t : ℕ → AttemptOutcome ε) :
    (getAIResponseRun t).attempts ≤ 3 := by
  have hrun : getAIResponseRun t =
      (let r := retryGo (fun i => attemptResult (t i)) 1 3
       ⟨r.1, r.2.1, r.2.2⟩) := rfl
  rw [hrun, retryGo_three]
  cases h1 : attemptResult (t 1) <;> cases h2 : attemptResult (t 2) <;>
    cases h3 : attemptResult (t 3) <;> simp [h1, h2, h3]

/-- A first successful attempt returns at once: one attempt, no sleep. -/
theorem aiRun_first_ok {ε : Type} (t : ℕ → AttemptOutcome ε) (v : Option Json)
    (h1 : attemptResult (t 1) = Except.ok v) :
    getAIResponseRun t = ⟨Except.ok v, 1, []⟩ := by
  have hrun : getAIResponseRun t =
      (let r := retryGo (fun i => attemptResult (t i)) 1 3
       ⟨r.1, r.2.1, r.2.2⟩) := rfl
  rw [hrun, retryGo_three]
  simp [h1]

/-- Failure then success: two attempts, one sleep. -/
theorem aiRun_second_ok {ε : Type} (t : ℕ → AttemptOutcome ε)
    (e1 : AttemptError ε) (v : Option Json)
    (h1 : attemptResult (t 1) = Except.error e1) (h2 : attemptResult (t 2) = Except.ok v) :
    getAIResponseRun t = ⟨Except.ok v, 2, [1000]⟩ := by
  have hrun : getAIResponseRun t =
      (let r := retryGo (fun i => attemptResult (t i)) 1 3
       ⟨r.1, r.2.1, r.2.2⟩) := rfl
  rw [hrun, retryGo_three]
  simp [h1, h2]

/-- Two failures then success: three attempts, two sleeps. -/
theorem aiRun_third_ok {ε : Type} (t : ℕ → AttemptOutcome ε)
    (e1 e2 : AttemptError ε) (v : Option Json)
    (h1 : attemptResult (t 1) = Except.error e1) (h2 : attemptResult (t 2) = Except.error e2)
    (h3 : attemptResult (t 3) = Except.ok v) :
    getAIResponseRun t = ⟨Except.ok v, 3, [1000, 1000]⟩ := by
  have hrun : getAIResponseRun t =
      (let r := retryGo (fun i => attemptResult (t i)) 1 3
       ⟨r.1, r.2.1, r.2.2⟩) := rfl
  rw [hrun, retryGo_three]
  simp [h1, h2, h3]

/-- Three failures: the loop stops after three attempts, two sleeps, and
the last error propagates. -/
theorem aiRun_all_fail {ε : Type} (t : ℕ → AttemptOutcome ε)
    (e1 e2 e3 : AttemptError ε)
    (h1 : attemptResult (t 1) = Except.error e1) (h2 : attemptResult (t 2) = Except.error e2)
    (h3 : attemptResult (t 3) = Except.error e3) :
    getAIResponseRun t = ⟨Except.error e3, 3, [1000, 1000]⟩ := by
  have hrun : getAIResponseRun t =
      (let r := retryGo (fun i => attemptResult (t i)) 1 3
       ⟨r.1, r.2.1, r.2.2⟩) := rfl
  rw [hrun, retryGo_three]
  simp [h1, h2, h3]

/-- A model-call error escapes `analyzeCode` unseen: the file (and the run)
produce no comments, only the one prompt was sent. -/
theorem analyzeCode_error {ε : Type}
    (oracle : String → Except ε (Option (List AIResponseItem)))
    (prd : PRDetails) (gls : String) (f : File) (rest : List File) (p : String) (e : ε)
    (hp : f.toPath = some p) (h1 : p ≠ "") (h2 : p ≠ "/dev/null")
    (ho : oracle (createPrompt gls f prd) = Except.error e) :
    analyzeCode oracle prd gls (f :: rest) = ⟨[], [createPrompt gls f prd], some e⟩ := by
  simp [analyzeCode, hp, h1, h2, ho]

/-- Claim C7: the model call is attempted at most 3 times; a first, second
or third successful attempt returns its `reviews` value with exactly the
preceding failures slept through at 1000 ms each; after a third consecutive
failure the last error propagates — and an error escaping the model client
aborts the per-file analysis with no comments produced for that file. -/
theorem C7_retry_policy {ε : Type} (t : ℕ → AttemptOutcome ε) :
    (getAIResponseRun t).attempts ≤ 3 ∧
    (∀ v, attemptResult (t 1) = Except.ok v →
      getAIResponseRun t = ⟨Except.ok v, 1, []⟩) ∧
    (∀ e1 v, attemptResult (t 1) = Except.error e1 → attemptResult (t 2) = Except.ok v →
      getAIResponseRun t = ⟨Except.ok v, 2, [1000]⟩) ∧
    (∀ e1 e2 v, attemptResult (t 1) = Except.error e1 →
      attemptResult (t 2) = Except.error e2 → attemptResult (t 3) = Except.ok v →
      getAIResponseRun t = ⟨Except.ok v, 3, [1000, 1000]⟩) ∧
    (∀ e1 e2 e3, attemptResult (t 1) = Except.error e1 →
      attemptResult (t 2) = Except.error e2 → attemptResult (t 3) = Except.error e3 →
      getAIResponseRun t = ⟨Except.error e3, 3, [1000, 1000]⟩) ∧
    (∀ (oracle : String → Except (AttemptError ε) (Option (List AIResponseItem)))
       (prd : PRDetails) (gls : String) (f : File) (rest : List File) (p : String)
       (e : AttemptError ε),
      f.toPath = some p → p ≠ "" → p ≠ "/dev/null" →
      oracle (createPrompt gls f prd) = Except.error e →
      analyzeCode oracle prd gls (f :: rest) = ⟨[], [createPrompt gls f prd], some e⟩) :=
  ⟨aiRun_attempts_le t,
   fun v h1 => aiRun_first_ok t v h1,
   fun e1 v h1 h2 => aiRun_second_ok t e1 v h1 h2,
   fun e1 e2 v h1 h2 h3 => aiRun_third_ok t e1 e2 v h1 h2 h3,
   fun e1 e2 e3 h1 h2 h3 => aiRun_all_fail t e1 e2 e3 h1 h2 h3,
   fun oracle prd gls f rest p e hp h1 h2 ho =>
     analyzeCode_error oracle prd gls f rest p e hp h1 h2 ho⟩

/-- Witness for C7 at a transport that always rejects. -/
theorem C7_witness :
    getAIResponseRun (fun _ => AttemptOutcome.transportError "down") =
      ⟨Except.error (AttemptError.transport "down"), 3, [1000, 1000]⟩ :=
  (C7_retry_policy (fun _ => AttemptOutcome.transportError "down")).2.2.2.2.1
    (AttemptError.transport "down") (AttemptError.transport "down")
    (AttemptError.transport "down") rfl rfl rfl

/-- Claim C4, as stated, is false on the code: a transport-successful
response whose body is not JSON makes `JSON.parse` throw inside the retry
loop — all three attempts are consumed and the parse error propagates,
rather than an empty review list being returned. -/
theorem C4_counterexample :
    getAIResponseRun
        (fun _ => (AttemptOutcome.response (some "it is not json") : AttemptOutcome String)) =
      ⟨Except.error AttemptError.parseError, 3, [1000, 1000]⟩ ∧
    jsonParse "it is not json" = none := ⟨rfl, rfl⟩

/-- Claim C4 (amended): an empty (or absent) body is replaced by the empty
object, whose missing `reviews` field makes `getAIResponse` return
`undefined` — no error, a single attempt, no retry.  A body that cannot be
parsed as JSON, by contrast, raises a SyntaxError that the retry loop
catches: the attempt is consumed, and if every attempt produces an
unparsable body the parse error propagates after the third attempt. -/
theorem C4_body_handling {ε : Type} (t : ℕ → AttemptOutcome ε) :
    ((t 1 = AttemptOutcome.response none ∨
      (∃ s, t 1 = AttemptOutcome.response (some s) ∧ jsTrim s = "")) →
      getAIResponseRun t = ⟨Except.ok none, 1, []⟩) ∧
    ((∀ i, 1 ≤ i → i ≤ 3 → ∃ s, t i = AttemptOutcome.response (some s) ∧
        jsTrim s ≠ "" ∧ jsonParse (jsTrim s) = none) →
      getAIResponseRun t = ⟨Except.error AttemptError.parseError, 3, [1000, 1000]⟩) := by
  have hempty : jsonParse "\x7b\x7d" = some (Json.obj []) := rfl
  constructor
  · intro h1
    have hstep : attemptResult (t 1) = Except.ok none := by
      rcases h1 with h1 | ⟨s, h1, hs⟩
      · rw [h1]
        rfl
      · rw [h1]
        simp [attemptResult, effectiveBody, hs, hempty, jsGetField, jsLookup]
    exact aiRun_first_ok t none hstep
  · intro h
    have hstep : ∀ i, 1 ≤ i → i ≤ 3 →
        attemptResult (t i) = Except.error AttemptError.parseError := by
      intro i hi1 hi3
      obtain ⟨s, hti, hs, hp⟩ := h i hi1 hi3
      rw [hti]
      simp [attemptResult, effectiveBody, hs, hp]
    exact aiRun_all_fail t _ _ _
      (hstep 1 (by norm_num) (by norm_num))
      (hstep 2 (by norm_num) (by norm_num))
      (hstep 3 (by norm_num) (by norm_num))

/-- Witness for C4's amended theorem: an empty body returns undefined
reviews on the first attempt, an unparsable body exhausts the retries. -/
theorem C4_witness :
    getAIResponseRun (fun _ => (AttemptOutcome.response none : AttemptOutcome String)) =
      ⟨Except.ok none, 1, []⟩ ∧
    getAIResponseRun (fun _ => (AttemptOutcome.response (some "no") : AttemptOutcome String)) =
      ⟨Except.error AttemptError.parseError, 3, [1000, 1000]⟩ :=
  ⟨(C4_body_handling (fun _ => AttemptOutcome.response none)).1 (Or.inl rfl),
   (C4_body_handling (fun _ => AttemptOutcome.response (some "no"))).2
     (fun _ _ _ => ⟨"no", rfl, by decide, rfl⟩)⟩

/-- Claim C10, as stated, is false on the code for the body `"null"`: it
parses as JSON and contains no `reviews` field, yet `getAIResponse` does
not return undefined — reading `.reviews` from `null` throws a TypeError
that is retried like any other failure and finally propagates. -/
theorem C10_counterexample :
    jsonParse "null" = some Json.null ∧
    getAIResponseRun (fun _ => (AttemptOutcome.response (some "null") : AttemptOutcome String)) =
      ⟨Except.error AttemptError.typeError, 3, [1000, 1000]⟩ := ⟨rfl, rfl⟩

/-- Claim C10 (amended): for a body that parses as JSON to a non-null value
without a `reviews` field (including the empty object substituted for an
empty body), `getAIResponse` returns the undefined `reviews` property on
the first attempt, without error; `analyzeCode` treats that falsy value as
"no reviews": the file contributes no comments and the analysis continues
with the remaining files. -/
theorem C10_missing_reviews {ε : Type} (t : String → ℕ → AttemptOutcome ε)
    (prd : PRDetails) (gls : String) (f : File) (rest : List File)
    (p : String) (content : Option String) (j : Json)
    (hp : f.toPath = some p) (h1 : p ≠ "") (h2 : p ≠ "/dev/null")
    (ht : t (createPrompt gls f prd) 1 = AttemptOutcome.response content)
    (hj : jsonParse (effectiveBody content) = some j)
    (hr : jsGetField j "reviews" = Except.ok none) :
    getAIResponseRun (t (createPrompt gls f prd)) = ⟨Except.ok none, 1, []⟩ ∧
    analyzeCode (oracleOf t) prd gls (f :: rest) =
      ⟨(analyzeCode (oracleOf t) prd gls rest).comments,
       createPrompt gls f prd :: (analyzeCode (oracleOf t) prd gls rest).calls,
       (analyzeCode (oracleOf t) prd gls rest).error⟩ := by
  have hstep : attemptResult (t (createPrompt gls f prd) 1) = Except.ok none := by
    rw [ht]
    simp [attemptResult, hj, hr]
  have hrun : getAIResponseRun (t (createPrompt gls f prd)) = ⟨Except.ok none, 1, []⟩ :=
    aiRun_first_ok (t (createPrompt gls f prd)) none hstep
  refine ⟨hrun, ?_⟩
  have horacle : oracleOf t (createPrompt gls f prd) = Except.ok none := by
    simp only [oracleOf, hrun]
    rfl
  simp [analyzeCode, hp, h1, h2, horacle]

/-- Witness for C10 at a file whose model response has an empty body. -/
theorem C10_witness :
    analyzeCode
        (oracleOf (fun _ _ => (AttemptOutcome.response none : AttemptOutcome String)))
        samplePR "" [{ toPath := some "app.py", chunks := [] }] =
      ⟨[], [createPrompt "" { toPath := some "app.py", chunks := [] } samplePR], none⟩ :=
  (C10_missing_reviews (fun _ _ => AttemptOutcome.response none) samplePR ""
    { toPath := some "app.py", chunks := [] } [] "app.py" none (Json.obj [])
    rfl (by decide) (by decide) rfl rfl rfl).2

/-- Claim C9: a file whose `to` path is absent (or empty, which is equally
falsy) or the deletion sentinel `"/dev/null"` is skipped by `analyzeCode`
with no prompt built and no model call made — removing it changes nothing
in the result — and every comment that reaches publication carries a real
path, never the sentinel or an empty one. -/
theorem C9_deleted_never_reviewed {ε : Type}
    (oracle : String → Except ε (Option (List AIResponseItem)))
    (prd : PRDetails) (gls : String) (pre post : List File) (f : File)
    (hf : f.toPath = none ∨ f.toPath = some "" ∨ f.toPath = some "/dev/null") :
    analyzeCode oracle prd gls (pre ++ f :: post) = analyzeCode oracle prd gls (pre ++ post) ∧
    (∀ (files : List File) (c : Comment), c ∈ (analyzeCode oracle prd gls files).comments →
      c.path ≠ "" ∧ c.path ≠ "/dev/null") := by
  constructor
  · induction pre with
    | nil =>
      rcases hf with h | h | h <;> simp [analyzeCode, h]
    | cons g pre ih =>
      simp only [List.cons_append]
      match hg : g.toPath with
      | none => simp only [analyzeCode, hg]; exact ih
      | some p =>
        by_cases hp : p = "" ∨ p = "/dev/null"
        · simp only [analyzeCode, hg, if_pos hp]
          exact ih
        · match ho : oracle (createPrompt gls g prd) with
          | Except.error e => simp [analyzeCode, hg, if_neg hp, ho]
          | Except.ok none => simp [analyzeCode, hg, if_neg hp, ho, ih]
          | Except.ok (some items) => simp [analyzeCode, hg, if_neg hp, ho, ih]
  · intro files
    induction files with
    | nil => intro c hc; simp [analyzeCode] at hc
    | cons g rest ih =>
      intro c hc
      match hg : g.toPath with
      | none =>
        rw [show analyzeCode oracle prd gls (g :: rest) = analyzeCode oracle prd gls rest by
          simp [analyzeCode, hg]] at hc
        exact ih c hc
      | some p =>
        by_cases hp : p = "" ∨ p = "/dev/null"
        · rw [show analyzeCode oracle prd gls (g :: rest) = analyzeCode oracle prd gls rest by
            simp [analyzeCode, hg, if_pos hp]] at hc
          exact ih c hc
        · match ho : oracle (createPrompt gls g prd) with
          | Except.error e =>
            rw [show analyzeCode oracle prd gls (g :: rest) =
                ⟨[], [createPrompt gls g prd], some e⟩ by
              simp [analyzeCode, hg, if_neg hp, ho]] at hc
            simp at hc
          | Except.ok none =>
            rw [show (analyzeCode oracle prd gls (g :: rest)).comments =
                (analyzeCode oracle prd gls rest).comments by
              simp [analyzeCode, hg, if_neg hp, ho]] at hc
            exact ih c hc
          | Except.ok (some items) =>
            rw [show (analyzeCode oracle prd gls (g :: rest)).comments =
                (createComment items).map
                  (fun c => { body := c.body, path := p, line := c.line, side := c.side }) ++
                  (analyzeCode oracle prd gls rest).comments by
              simp [analyzeCode, hg, if_neg hp, ho]] at hc
            rcases List.mem_append.mp hc with hmem | hmem
            · obtain ⟨pc, _, hpc⟩ := List.mem_map.mp hmem
              have : c.path = p := by rw [← hpc]
              rw [this]
              push_neg at hp
              exact hp
            · exact ih c hmem

/-- Witness for C9 at a deleted file. -/
theorem C9_witness :
    analyzeCode (fun _ => (Except.ok none : Except Unit (Option (List AIResponseItem))))
        samplePR "" [{ toPath := some "/dev/null", chunks := [] }] =
      analyzeCode (fun _ => (Except.ok none : Except Unit (Option (List AIResponseItem))))
        samplePR "" [] :=
  (C9_deleted_never_reviewed (fun _ => Except.ok none) samplePR "" [] []
    { toPath := some "/dev/null", chunks := [] } (Or.inr (Or.inr rfl))).1

/-- Filtering against an empty existing-comment set removes nothing. -/
theorem dedup_nil (comments : List Comment) : uniqueCommentsOf comments [] = comments := by
  simp [uniqueCommentsOf, isDuplicate, existingKeysOf]

/-- `chunkArray` concatenates back to its input (positive chunk size,
enough fuel). -/
theorem chunkGo_join {α : Type} (size : ℕ) (hs : 0 < size) :
    ∀ (fuel : ℕ) (arr : List α), arr.length ≤ fuel →
      (chunkArrayGo size fuel arr).flatten = arr := by
  intro fuel
  induction fuel with
  | zero =>
    intro arr h
    have : arr = [] := List.eq_nil_of_length_eq_zero (by omega)
    subst this
    rfl
  | succ fuel ih =>
    intro arr h
    match arr with
    | [] => rfl
    | x :: xs =>
      have hd : ((x :: xs).drop size).length ≤ fuel := by
        rw [List.length_drop]
        simp only [List.length_cons] at h ⊢
        omega
      show ((x :: xs).take size :: chunkArrayGo size fuel ((x :: xs).drop size)).flatten = x :: xs
      rw [List.flatten_cons, ih ((x :: xs).drop size) hd]
      exact List.take_append_drop size (x :: xs)

/-- Every chunk has at most `size` elements. -/
theorem chunkGo_sizes {α : Type} (size : ℕ) :
    ∀ (fuel : ℕ) (arr : List α) (b : List α), b ∈ chunkArrayGo size fuel arr →
      b.length ≤ size := by
  intro fuel
  induction fuel with
  | zero => intro arr b hb; simp [chunkArrayGo] at hb
  | succ fuel ih =>
    intro arr b hb
    match arr with
    | [] => simp [chunkArrayGo] at hb
    | x :: xs =>
      rcases List.mem_cons.mp hb with hb | hb
      · subst hb
        simp [List.length_take]
      · exact ih _ b hb

/-- The number of chunks is the ceiling of length over size. -/
theorem chunkGo_count {α : Type} (size : ℕ) (hs : 0 < size) :
    ∀ (fuel : ℕ) (arr : List α), arr.length ≤ fuel →
      (chunkArrayGo size fuel arr).length = (arr.length + size - 1) / size := by
  have hz : (size - 1) / size = 0 := Nat.div_eq_of_lt (by omega)
  intro fuel
  induction fuel with
  | zero =>
    intro arr h
    have : arr = [] := List.eq_nil_of_length_eq_zero (by omega)
    subst this
    simpa [chunkArrayGo] using hz.symm
  | succ fuel ih =>
    intro arr h
    match arr with
    | [] => simpa [chunkArrayGo] using hz.symm
    | x :: xs =>
      have hd : ((x :: xs).drop size).length ≤ fuel := by
        rw [List.length_drop]
        simp only [List.length_cons] at h ⊢
        omega
      have hrec : (chunkArrayGo size (fuel + 1) (x :: xs)) =
          (x :: xs).take size :: chunkArrayGo size fuel ((x :: xs).drop size) := rfl
      rw [hrec, List.length_cons, ih _ hd, List.length_drop, List.length_cons]
      rcases Nat.lt_or_ge (xs.length + 1) size with hlen | hlen
      · have h0 : xs.length + 1 - size = 0 := by omega
        have h00 : (0 + size - 1) / size = 0 := by simpa using hz
        have h1 : (xs.length + 1 + size - 1) / size = 1 := by
          apply Nat.div_eq_of_lt_le <;> omega
        rw [h0, h00, h1]
      · have h1 : xs.length + 1 - size + size - 1 = xs.length := by omega
        have h2 : xs.length + 1 + size - 1 = xs.length + size := by omega
        rw [h1, h2, Nat.add_div_right _ hs]

/-- When every review-creation call succeeds, the loop performs exactly one
call per batch, in order. -/
theorem submit_all_ok {ε : Type} (outcome : ReviewCall → Except ε Unit)
    (hok : ∀ call, outcome call = Except.ok ()) :
    ∀ batches : List (List Comment),
      submitBatches outcome batches = (batches.map createReviewComment, none) := by
  intro batches
  induction batches with
  | nil => rfl
  | cons b rest ih => simp [submitBatches, hok, ih]

/-- Claim C8: the final comment list is split into ceil(N/50) batches of at
most 50 comments whose concatenation in order is the input; each batch is
submitted as one review-creation call with event `"COMMENT"`, and an empty
list produces no call at all. -/
theorem C8_batching {ε : Type} (l : List Comment) (outcome : ReviewCall → Except ε Unit)
    (hok : ∀ call, outcome call = Except.ok ()) :
    (chunkArray l 50).length = (l.length + 49) / 50 ∧
    (∀ b ∈ chunkArray l 50, b.length ≤ 50) ∧
    (chunkArray l 50).flatten = l ∧
    submitBatches outcome (chunkArray l 50) =
      ((chunkArray l 50).map createReviewComment, none) ∧
    (∀ call ∈ (submitBatches outcome (chunkArray l 50)).1, call.event = "COMMENT") ∧
    (l = [] → submitBatches outcome (chunkArray l 50) = ([], none)) := by
  have h50 : (0 : ℕ) < 50 := by norm_num
  refine ⟨?_, ?_, ?_, submit_all_ok outcome hok _, ?_, ?_⟩
  · have := chunkGo_count 50 h50 l.length l (le_refl _)
    simpa [chunkArray] using this
  · intro b hb
    exact chunkGo_sizes 50 l.length l b hb
  · exact chunkGo_join 50 h50 l.length l (le_refl _)
  · intro call hcall
    rw [submit_all_ok outcome hok _] at hcall
    obtain ⟨b, _, hb⟩ := List.mem_map.mp hcall
    rw [← hb]
    rfl
  · intro hl
    subst hl
    rfl

/-- Witness for C8 at a one-comment list. -/
theorem C8_witness :
    chunkArray [sampleComment] 50 = [[sampleComment]] ∧
    submitBatches (fun _ => (Except.ok () : Except Unit Unit)) (chunkArray [sampleComment] 50) =
      ([createReviewComment [sampleComment]], none) :=
  ⟨rfl, (C8_batching [sampleComment] (fun _ => Except.ok ()) (fun _ => rfl)).2.2.2.1⟩

/-- Claim C2, as stated, is false on the code: when the single batched
review-creation call fails, nothing is retried per comment — the error
propagates out of the loop (failing the run) and the batch's comments are
never created. -/
theorem C2_counterexample :
    mainPublish (Except.ok ([] : List ReviewThread)) [sampleComment, sampleComment2]
        (fun _ => Except.error "boom") =
      ⟨true, [createReviewComment [sampleComment, sampleComment2]], some "boom"⟩ := rfl

/-- Claim C2 (amended): the publishing loop has no fallback: after any
prefix of successful batch submissions, the first failing batched call
makes its error propagate immediately — later batches are not submitted and
no per-comment calls exist. -/
theorem C2_batch_failure {ε : Type} (outcome : ReviewCall → Except ε Unit)
    (pre : List (List Comment)) (b : List Comment) (post : List (List Comment)) (e : ε)
    (hpre : ∀ x ∈ pre, outcome (createReviewComment x) = Except.ok ())
    (hb : outcome (createReviewComment b) = Except.error e) :
    submitBatches outcome (pre ++ b :: post) =
      (pre.map createReviewComment ++ [createReviewComment b], some e) := by
  induction pre with
  | nil => simp [submitBatches, hb]
  | cons x xs ih =>
    have hx : outcome (createReviewComment x) = Except.ok () := hpre x (List.mem_cons_self x xs)
    have hxs : ∀ y ∈ xs, outcome (createReviewComment y) = Except.ok () :=
      fun y hy => hpre y (List.mem_cons_of_mem x hy)
    simp [submitBatches, hx, ih hxs]

/-- Witness for C2's amended theorem: one good batch, then a failing one. -/
theorem C2_witness :
    submitBatches
        (fun c => if c.comments = [sampleComment2] then Except.error "bad" else Except.ok ())
        ([[sampleComment]] ++ [sampleComment2] :: []) =
      ([createReviewComment [sampleComment], createReviewComment [sampleComment2]], some "bad") :=
  C2_batch_failure _ [[sampleComment]] [sampleComment2] [] "bad"
    (fun x hx => by
      rcases List.mem_singleton.mp hx with rfl
      simp [createReviewComment, sampleComment, sampleComment2])
    (by simp [createReviewComment])

/-- Claim C3, as stated, is false on the code: when listing the review
threads fails, the failure does not propagate — the run is marked failed
but `main` continues and publishes the candidate comments against an empty
existing set. -/
theorem C3_counterexample :
    mainPublish (Except.error "graphql down") [sampleComment] (fun _ => Except.ok ()) =
      ⟨true, [createReviewComment [sampleComment]], none⟩ := rfl

/-- Claim C3 (amended): a failed thread listing is caught inside
`getExistingCommentsGraphQL`, which calls `core.setFailed` and returns an
empty set; `main` then deduplicates against that empty set (removing
nothing) and proceeds to publish every candidate comment. -/
theorem C3_listing_failure {ε : Type} (e : ε) (comments : List Comment)
    (outcome : ReviewCall → Except ε Unit) (h : comments ≠ []) :
    mainPublish (Except.error e) comments outcome =
      ⟨true, (submitBatches outcome (chunkArray comments BATCH_SIZE)).1,
       (submitBatches outcome (chunkArray comments BATCH_SIZE)).2⟩ := by
  have hne : comments.isEmpty = false := by
    simpa [List.isEmpty_iff] using h
  simp [mainPublish, hne, getExistingCommentsRun, dedup_nil]

/-- Witness for C3's amended theorem at a concrete failed listing. -/
theorem C3_witness :
    mainPublish (Except.error "gql") [sampleComment2] (fun _ => Except.ok ()) =
      ⟨true, (submitBatches (fun _ => (Except.ok () : Except String Unit))
                (chunkArray [sampleComment2] BATCH_SIZE)).1,
       (submitBatches (fun _ => (Except.ok () : Except String Unit))
                (chunkArray [sampleComment2] BATCH_SIZE)).2⟩ :=
  C3_listing_failure "gql" [sampleComment2] (fun _ => Except.ok ()) (by simp)

/-- `digitCh` only produces digit characters. -/
theorem digitCh_mem (k : ℕ) : digitCh k ∈ digitChars := by
  rcases k with _ | _ | _ | _ | _ | _ | _ | _ | _ | k <;>
    first
      | decide
      | exact (show ('9' : Char) ∈ digitChars by decide)

/-- Every character of a rendered natural number is a digit. -/
theorem natRepr_mem : ∀ (n : ℕ) (c : Char), c ∈ natRepr n → c ∈ digitChars := by
  intro n
  induction n using Nat.strong_induction_on with
  | _ n ih =>
    intro c hc
    rw [natRepr] at hc
    split at hc
    · rcases List.mem_singleton.mp hc with rfl
      exact digitCh_mem n
    · rcases List.mem_append.mp hc with hc | hc
      · exact ih (n / 10) (Nat.div_lt_self (by omega) (by omega)) c hc
      · rcases List.mem_singleton.mp hc with rfl
        exact digitCh_mem (n % 10)

/-- A rendered natural number is never empty. -/
theorem natRepr_ne_nil (n : ℕ) : natRepr n ≠ [] := by
  rw [natRepr]
  split <;> simp

/-- `decodeNat` peels the last digit. -/
theorem decodeNat_append (xs : List Char) (c : Char) :
    decodeNat (xs ++ [c]) = 10 * decodeNat xs + digitVal c := by
  simp [decodeNat, List.foldl_append]

/-- `digitVal` inverts `digitCh` on digits. -/
theorem digitVal_digitCh (k : ℕ) (h : k < 10) : digitVal (digitCh k) = k := by
  interval_cases k <;> decide

/-- Decoding inverts rendering. -/
theorem decode_natRepr : ∀ n : ℕ, decodeNat (natRepr n) = n := by
  intro n
  induction n using Nat.strong_induction_on with
  | _ n ih =>
    rw [natRepr]
    split
    · next h =>
      show decodeNat [digitCh n] = n
      simp [decodeNat, digitVal_digitCh n h]
    · next h =>
      rw [decodeNat_append, ih (n / 10) (Nat.div_lt_self (by omega) (by omega)),
        digitVal_digitCh (n % 10) (Nat.mod_lt n (by omega))]
      omega

/-- The decimal rendering of naturals is injective. -/
theorem natRepr_inj {a b : ℕ} (h : natRepr a = natRepr b) : a = b := by
  have ha := decode_natRepr a
  rw [h, decode_natRepr b] at ha
  omega

/-- Splitting at a colon is unambiguous when the suffixes are colon-free. -/
theorem colon_split : ∀ (a c b d : List Char), ':' ∉ b → ':' ∉ d →
    a ++ ':' :: b = c ++ ':' :: d → a = c ∧ b = d := by
  intro a
  induction a with
  | nil =>
    intro c b d hb hd h
    match c with
    | [] => simpa using h
    | y :: ys =>
      exfalso
      rw [List.nil_append, List.cons_append, List.cons.injEq] at h
      exact hb (h.2 ▸ List.mem_append_right ys (List.mem_cons_self ':' d))
  | cons x xs ih =>
    intro c b d hb hd h
    match c with
    | [] =>
      exfalso
      rw [List.nil_append, List.cons_append, List.cons.injEq] at h
      exact hd (h.2.symm ▸ List.mem_append_right xs (List.mem_cons_self ':' b))
    | y :: ys =>
      rw [List.cons_append, List.cons_append, List.cons.injEq] at h
      obtain ⟨rfl, htail⟩ := h
      obtain ⟨h1, h2⟩ := ih ys b d hb hd htail
      exact ⟨by rw [h1], h2⟩

/-- Splitting an all-digit prefix from a suffix that does not start with a
digit is unambiguous. -/
theorem digits_split : ∀ (a c t1 t2 : List Char),
    (∀ x ∈ a, x ∈ digitChars) → (∀ x ∈ c, x ∈ digitChars) →
    (∀ x, t1.head? = some x → x ∉ digitChars) →
    (∀ x, t2.head? = some x → x ∉ digitChars) →
    a ++ t1 = c ++ t2 → a = c ∧ t1 = t2 := by
  intro a
  induction a with
  | nil =>
    intro c t1 t2 _ hc ht1 _ h
    match c with
    | [] => simpa using h
    | y :: ys =>
      exfalso
      rw [List.nil_append, List.cons_append] at h
      exact ht1 y (by rw [h]; rfl) (hc y (List.mem_cons_self y ys))
  | cons x xs ih =>
    intro c t1 t2 ha hc ht1 ht2 h
    match c with
    | [] =>
      exfalso
      rw [List.nil_append, List.cons_append] at h
      exact ht2 x (by rw [← h]; rfl) (ha x (List.mem_cons_self x xs))
    | y :: ys =>
      rw [List.cons_append, List.cons_append, List.cons.injEq] at h
      obtain ⟨rfl, htail⟩ := h
      obtain ⟨h1, h2⟩ := ih ys t1 t2
        (fun z hz => ha z (List.mem_cons_of_mem x hz))
        (fun z hz => hc z (List.mem_cons_of_mem x hz)) ht1 ht2 htail
      exact ⟨by rw [h1], h2⟩

/-- A colon is not a digit. -/
theorem colon_not_digit : (':' : Char) ∉ digitChars := by decide

/-- The rendered line number never contains a colon. -/
theorem qRepr_no_colon (q : ℚ) : ':' ∉ qRepr q := by
  intro h
  unfold qRepr at h
  rcases List.mem_append.mp h with h | h
  · rcases List.mem_append.mp h with h | h
    · split at h <;> simp at h
    · exact colon_not_digit (natRepr_mem _ ':' h)
  · split at h
    · simp at h
    · rcases List.mem_cons.mp h with h | h
      · simp at h
      · exact colon_not_digit (natRepr_mem _ ':' h)

/-- The rendered side never contains a colon. -/
theorem sideRepr_no_colon (s : Side) : ':' ∉ sideRepr s := by
  cases s <;> decide

/-- The side rendering is injective. -/
theorem sideRepr_inj {s1 s2 : Side} (h : sideRepr s1 = sideRepr s2) : s1 = s2 := by
  cases s1 <;> cases s2 <;> simp_all [sideRepr]

/-- A rendered natural number starts with a digit. -/
theorem natRepr_head_digit (n : ℕ) :
    ∃ y ys, natRepr n = y :: ys ∧ y ∈ digitChars := by
  obtain ⟨y, ys, hy⟩ := List.exists_cons_of_ne_nil (natRepr_ne_nil n)
  exact ⟨y, ys, hy, natRepr_mem n y (hy ▸ List.mem_cons_self y ys)⟩

/-- The denominator tail of `qRepr` does not start with a digit. -/
theorem den_tail_head (q : ℚ) :
    ∀ x, ((if q.den = 1 then ([] : List Char) else '.' :: natRepr q.den)).head? = some x →
      x ∉ digitChars := by
  intro x hx
  split at hx
  · simp at hx
  · rw [List.head?_cons, Option.some.injEq] at hx
    rw [← hx]
    decide

/-- The line-number rendering is injective. -/
theorem qRepr_inj {q1 q2 : ℚ} (h : qRepr q1 = qRepr q2) : q1 = q2 := by
  unfold qRepr at h
  by_cases h1 : q1 < 0 <;> by_cases h2 : q2 < 0
  pick_goal 2
  · exfalso
    obtain ⟨y, ys, hy, hydig⟩ := natRepr_head_digit q2.num.natAbs
    rw [if_pos h1, if_neg h2, hy] at h
    simp only [List.nil_append, List.cons_append, List.append_assoc, List.cons.injEq] at h
    exact absurd (h.1 ▸ hydig) (by decide)
  pick_goal 2
  · exfalso
    obtain ⟨y, ys, hy, hydig⟩ := natRepr_head_digit q1.num.natAbs
    rw [if_neg h1, if_pos h2, hy] at h
    simp only [List.nil_append, List.cons_append, List.append_assoc, List.cons.injEq] at h
    exact absurd (h.1.symm ▸ hydig) (by decide)
  all_goals
    first
      | rw [if_pos h1, if_pos h2] at h
      | rw [if_neg h1, if_neg h2] at h
  all_goals
    simp only [List.nil_append, List.cons_append, List.append_assoc, List.cons.injEq] at h
  · obtain ⟨hn, ht⟩ := digits_split _ _ _ _
      (fun c hc => natRepr_mem _ c hc) (fun c hc => natRepr_mem _ c hc)
      (den_tail_head q1) (den_tail_head q2) h.2
    have hna : q1.num.natAbs = q2.num.natAbs := natRepr_inj hn
    have hden : q1.den = q2.den := by
      by_cases hd1 : q1.den = 1 <;> by_cases hd2 : q2.den = 1
      · rw [hd1, hd2]
      · rw [if_pos hd1, if_neg hd2] at ht; simp at ht
      · rw [if_neg hd1, if_pos hd2] at ht; simp at ht
      · rw [if_neg hd1, if_neg hd2, List.cons.injEq] at ht
        exact natRepr_inj ht.2
    have hs1 : ¬ (0 ≤ q1.num) := by rw [Rat.num_nonneg]; exact not_le.mpr h1
    have hs2 : ¬ (0 ≤ q2.num) := by rw [Rat.num_nonneg]; exact not_le.mpr h2
    exact Rat.ext (by omega) hden
  · obtain ⟨hn, ht⟩ := digits_split _ _ _ _
      (fun c hc => natRepr_mem _ c hc) (fun c hc => natRepr_mem _ c hc)
      (den_tail_head q1) (den_tail_head q2) h
    have hna : q1.num.natAbs = q2.num.natAbs := natRepr_inj hn
    have hden : q1.den = q2.den := by
      by_cases hd1 : q1.den = 1 <;> by_cases hd2 : q2.den = 1
      · rw [hd1, hd2]
      · rw [if_pos hd1, if_neg hd2] at ht; simp at ht
      · rw [if_neg hd1, if_pos hd2] at ht; simp at ht
      · rw [if_neg hd1, if_neg hd2, List.cons.injEq] at ht
        exact natRepr_inj ht.2
    have hs1 : 0 ≤ q1.num := Rat.num_nonneg.mpr (not_lt.mp h1)
    have hs2 : 0 ≤ q2.num := Rat.num_nonneg.mpr (not_lt.mp h2)
    exact Rat.ext (by omega) hden

/-- The key around its last two colons. -/
theorem commentKey_regroup (p : String) (l : ℚ) (s : Side) :
    commentKey p l s = (p.data ++ ':' :: qRepr l) ++ ':' :: sideRepr s := by
  simp [commentKey, List.append_assoc]

/-- The string key `path:line:side` is injective: matching keys is exactly
matching the (path, line, side) triple. -/
theorem commentKey_inj {p1 p2 : String} {l1 l2 : ℚ} {s1 s2 : Side}
    (h : commentKey p1 l1 s1 = commentKey p2 l2 s2) :
    p1 = p2 ∧ l1 = l2 ∧ s1 = s2 := by
  rw [commentKey_regroup, commentKey_regroup] at h
  obtain ⟨hpl, hs⟩ := colon_split _ _ _ _ (sideRepr_no_colon s1) (sideRepr_no_colon s2) h
  obtain ⟨hp, hl⟩ := colon_split _ _ _ _ (qRepr_no_colon l1) (qRepr_no_colon l2) hpl
  refine ⟨?_, qRepr_inj hl, sideRepr_inj hs⟩
  cases p1
  cases p2
  exact congrArg String.mk (by simpa using hp)

/-- Projecting the tuple out of one thread's existing comments. -/
theorem thread_tuple (sel : ThreadComment → Option ℚ) (side : Side)
    (cms : List ThreadComment) :
    (cms.flatMap fun cm =>
        match sel cm with
        | none => ([] : List ExistingComment)
        | some l => [{ path := cm.path, line := l, body := cm.body, side := side }]).map
      (fun e => (e.path, e.line, e.side)) =
    cms.flatMap fun cm =>
        match sel cm with
        | none => []
        | some l => [(cm.path, l, side)] := by
  induction cms with
  | nil => rfl
  | cons cm rest ih =>
    rw [List.flatMap_cons, List.flatMap_cons, List.map_append, ih]
    congr 1
    cases h : sel cm <;> simp [h]

/-- The tuples of the comments accumulated by the code are exactly the
spec-side thread keys. -/
theorem existing_map_tuple (threads : List ReviewThread) :
    (existingCommentsOfThreads threads).map (fun e => (e.path, e.line, e.side)) =
      specThreadKeys threads := by
  induction threads with
  | nil => rfl
  | cons t ts ih =>
    simp only [existingCommentsOfThreads, specThreadKeys, List.flatMap_cons,
      List.map_append] at ih ⊢
    rw [ih]
    congr 1
    by_cases hout : t.isOutdated
    · simp [hout]
    · cases hds : t.diffSide <;> simp only [hout, hds, if_false, reduceIte] <;>
        first
          | exact thread_tuple (fun cm => cm.originalBaseLine) Side.LEFT t.comments
          | exact thread_tuple (fun cm => cm.actualHeadLine) Side.RIGHT t.comments

/-- A candidate is a duplicate exactly when some spec-side thread key
matches its (path, line, side) triple. -/
theorem isDuplicate_iff (c : Comment) (threads : List ReviewThread) :
    isDuplicate (existingKeysOf (existingCommentsOfThreads threads)) c = true ↔
      ∃ k ∈ specThreadKeys threads,
        c.path = k.1 ∧ c.line = k.2.1 ∧ c.side = k.2.2 := by
  rw [isDuplicate, existingKeysOf, List.contains, List.elem_iff]
  constructor
  · intro hmem
    obtain ⟨e, he, hkey⟩ := List.mem_map.mp hmem
    obtain ⟨hp, hl, hs⟩ := commentKey_inj hkey
    refine ⟨(e.path, e.line, e.side), ?_, hp.symm, hl.symm, hs.symm⟩
    rw [← existing_map_tuple]
    exact List.mem_map.mpr ⟨e, he, rfl⟩
  · intro ⟨k, hk, hp, hl, hs⟩
    rw [← existing_map_tuple] at hk
    obtain ⟨e, he, hek⟩ := List.mem_map.mp hk
    apply List.mem_map.mpr
    refine ⟨e, he, ?_⟩
    have hp2 : e.path = c.path := by rw [hp, ← hek]
    have hl2 : e.line = c.line := by rw [hl, ← hek]
    have hs2 : e.side = c.side := by rw [hs, ← hek]
    rw [hp2, hl2, hs2]

/-- Claim C6: the duplicate filter keeps exactly the candidates whose
(path, line, side) triple matches no key of a non-outdated thread's
comments — LEFT threads contribute their base-relative line, RIGHT threads
their head-relative line, null-anchored comments contribute nothing, and
matching is exact equality of the triple (the key strings are injective in
the triple), with no comparison of comment text. -/
theorem C6_dedup_exact (comments : List Comment) (threads : List ReviewThread) :
    uniqueCommentsOf comments (existingCommentsOfThreads threads) =
      comments.filter (fun c =>
        decide (∀ k ∈ specThreadKeys threads,
          ¬(c.path = k.1 ∧ c.line = k.2.1 ∧ c.side = k.2.2))) := by
  rw [uniqueCommentsOf]
  apply List.filter_congr
  intro c _
  cases hd : isDuplicate (existingKeysOf (existingCommentsOfThreads threads)) c
  · have hnd : ¬ (isDuplicate (existingKeysOf (existingCommentsOfThreads threads)) c = true) := by
      rw [hd]
      simp
    have hall : ∀ k ∈ specThreadKeys threads,
        ¬(c.path = k.1 ∧ c.line = k.2.1 ∧ c.side = k.2.2) := by
      intro k hk hconj
      exact hnd ((isDuplicate_iff c threads).mpr ⟨k, hk, hconj⟩)
    simp only [Bool.not_false]
    exact (decide_eq_true hall).symm
  · obtain ⟨k, hk, hconj⟩ := (isDuplicate_iff c threads).mp hd
    have hnall : ¬ ∀ k ∈ specThreadKeys threads,
        ¬(c.path = k.1 ∧ c.line = k.2.1 ∧ c.side = k.2.2) := by
      intro hall
      exact hall k hk hconj
    simp only [Bool.not_true]
    exact (decide_eq_false hnall).symm
